import Mathlib

/-!
Verification of the EthMultiVault vault-accounting model
(`src/_playground/ethmultivault.py`).

The Python reference computes every quantity with arbitrary-precision
`Decimal` arithmetic on nonnegative integer wei amounts, applying
`math.ceil` and `math.floor` after each fee division.  We embed the
model over `ℕ` with explicit `ceilDiv`/`floorDiv`, which agrees with the
reference on all nonnegative-integer inputs.
-/

namespace EthMultiVault

/-- `Web3.to_wei(Decimal(0.0002), ether)`: flat protocol fee charged at atom creation. -/
def atomCreationProtocolFee : ℕ := 200000000000000

/-- `Web3.to_wei(Decimal(0.0001), ether)`: shares granted to the atom wallet at creation. -/
def atomWalletInitialDepositAmount : ℕ := 100000000000000

/-- `Web3.to_wei(Decimal(0.0002), ether)`: flat protocol fee charged at triple creation. -/
def tripleCreationProtocolFee : ℕ := 200000000000000

/-- `Web3.to_wei(Decimal(0.0003), ether)`: fixed deposit fanned to the three atoms. -/
def atomDepositFractionOnTripleCreation : ℕ := 300000000000000

/-- 15% in basis points: fraction of a triple deposit routed to the atoms. -/
def atomDepositFractionForTriple : ℕ := 1500

/-- `Web3.to_wei(Decimal(0.0000000000001), ether)`: permanent dust floor. -/
def minShare : ℕ := 100000

/-- 1% in basis points. -/
def protocolFee : ℕ := 100

/-- 5% in basis points. -/
def entryFee : ℕ := 500

/-- 5% in basis points. -/
def exitFee : ℕ := 500

/-- Fee denominator: basis points are parts per 10000. -/
def feeDenominator : ℕ := 10000

/-- `atomCost = atomCreationProtocolFee + atomWalletInitialDepositAmount + minShare`. -/
def atomCost : ℕ := atomCreationProtocolFee + atomWalletInitialDepositAmount + minShare

/-- `tripleCost = tripleCreationProtocolFee + atomDepositFractionOnTripleCreation + 2*minShare`. -/
def tripleCost : ℕ :=
  tripleCreationProtocolFee + atomDepositFractionOnTripleCreation + 2 * minShare

/-- `math.floor(a / b)` on nonnegative integer operands. -/
def floorDiv (a b : ℕ) : ℕ := a / b

/-- `math.ceil(a / b)` on nonnegative integer operands. -/
def ceilDiv (a b : ℕ) : ℕ := (a + b - 1) / b

/-- Result tuple of `createAtom`. -/
structure AtomCreateResult where
  userShares : ℕ
  totalShares : ℕ
  totalAssets : ℕ
  atomWalletShares : ℕ
  protocolMultisigAssets : ℕ
deriving DecidableEq

/-- `createAtom(value)` from `ethmultivault.py` lines 31-46. -/
def createAtom (value : ℕ) : AtomCreateResult :=
  let userDeposit := value - atomCost
  let protocolFeeAmount := ceilDiv (userDeposit * protocolFee) feeDenominator
  let userDepositAfterprotocolFee := userDeposit - protocolFeeAmount
  { userShares := userDepositAfterprotocolFee
    totalShares := userDepositAfterprotocolFee + atomWalletInitialDepositAmount + minShare
    totalAssets := userDepositAfterprotocolFee + atomWalletInitialDepositAmount + minShare
    atomWalletShares := atomWalletInitialDepositAmount
    protocolMultisigAssets := atomCreationProtocolFee + protocolFeeAmount }

/-- Result tuple of `createTriple`. -/
structure TripleCreateResult where
  userSharesPositiveVault : ℕ
  totalSharesPositiveVault : ℕ
  totalAssetsPositiveVault : ℕ
  totalSharesNegativeVault : ℕ
  totalAssetsNegativeVault : ℕ
  userSharesAtomVault : ℕ
  totalSharesAtomVault : ℕ
  totalAssetsAtomVault : ℕ
  protocolMultisigAssets : ℕ
deriving DecidableEq

/-- The `atomDepositFraction` local variable of `createTriple` (line 54). -/
def tripleAtomDepositFraction (value : ℕ) : ℕ :=
  let userDeposit := value - tripleCost
  let protocolFeeAmount := ceilDiv (userDeposit * protocolFee) feeDenominator
  floorDiv ((userDeposit - protocolFeeAmount) * atomDepositFractionForTriple) feeDenominator

/-- `createTriple(value)` from `ethmultivault.py` lines 49-84.  The atom-vault
fields are the per-atom deltas applied to each of the three underlying atoms. -/
def createTriple (value : ℕ) : TripleCreateResult :=
  let userDeposit := value - tripleCost
  let protocolFeeAmount := ceilDiv (userDeposit * protocolFee) feeDenominator
  let userDepositAfterprotocolFee := userDeposit - protocolFeeAmount
  let atomDepositFraction :=
    floorDiv (userDepositAfterprotocolFee * atomDepositFractionForTriple) feeDenominator
  let perAtom := floorDiv atomDepositFraction 3
  let userAssetsAfterAtomDepositFraction := userDepositAfterprotocolFee - atomDepositFraction
  let entryFeeAmount := floorDiv (perAtom * entryFee) feeDenominator
  let assetsForTheAtom := perAtom - entryFeeAmount
  let userSharesAfterTotalFees := assetsForTheAtom
  { userSharesPositiveVault := userAssetsAfterAtomDepositFraction
    totalSharesPositiveVault := userAssetsAfterAtomDepositFraction + minShare
    totalAssetsPositiveVault := userAssetsAfterAtomDepositFraction + minShare
    totalSharesNegativeVault := minShare
    totalAssetsNegativeVault := minShare
    userSharesAtomVault := userSharesAfterTotalFees
    totalSharesAtomVault := userSharesAfterTotalFees
    totalAssetsAtomVault := assetsForTheAtom + entryFeeAmount
      + floorDiv atomDepositFractionOnTripleCreation 3
    protocolMultisigAssets := tripleCreationProtocolFee + protocolFeeAmount }

/-- The `protocolFeeAmount` local variable of `depositAtom` (line 89). -/
def depositProtocolFeeAmount (value : ℕ) : ℕ :=
  ceilDiv (value * protocolFee) feeDenominator

/-- The `entryFeeAmount` local variable of `depositAtom` (line 91). -/
def depositEntryFeeAmount (value : ℕ) : ℕ :=
  floorDiv ((value - depositProtocolFeeAmount value) * entryFee) feeDenominator

/-- Result tuple of `depositAtom`. -/
structure DepositAtomResult where
  userSharesForTheAtom : ℕ
  totalSharesAtomVault : ℕ
  totalAssetsAtomVault : ℕ
  protocolMultisigAssets : ℕ
deriving DecidableEq

/-- `depositAtom(value, totalAssets, totalShares)` from `ethmultivault.py` lines 87-102. -/
def depositAtom (value totalAssets totalShares : ℕ) : DepositAtomResult :=
  let protocolFeeAmount := depositProtocolFeeAmount value
  let userDepositAfterprotocolFee := value - protocolFeeAmount
  let entryFeeAmount := depositEntryFeeAmount value
  let assetsForTheAtom := userDepositAfterprotocolFee - entryFeeAmount
  let userSharesForTheAtom := floorDiv (assetsForTheAtom * totalShares) totalAssets
  { userSharesForTheAtom := userSharesForTheAtom
    totalSharesAtomVault := totalShares + userSharesForTheAtom
    totalAssetsAtomVault := totalAssets + assetsForTheAtom + entryFeeAmount
    protocolMultisigAssets := protocolFeeAmount }

/-- Result tuple of `depositTriple`. -/
structure DepositTripleResult where
  userSharesPositiveVault : ℕ
  totalSharesPositiveVault : ℕ
  totalAssetsPositiveVault : ℕ
  userSharesAtomVault : ℕ
  totalSharesAtomVault : ℕ
  totalAssetsAtomVault : ℕ
  protocolMultisigAssets : ℕ
deriving DecidableEq

/-- `depositTriple(value, totalAssets, totalShares, totalAssetsAtom, totalSharesAtom)`
from `ethmultivault.py` lines 105-152.  The atom-vault fields are the per-atom
deltas applied to each of the three underlying atoms. -/
def depositTriple (value totalAssets totalShares totalAssetsAtom totalSharesAtom : ℕ) :
    DepositTripleResult :=
  let protocolFeeAmount := ceilDiv (value * protocolFee) feeDenominator
  let userDepositAfterprotocolFee := value - protocolFeeAmount
  let atomDepositFraction :=
    floorDiv (userDepositAfterprotocolFee * atomDepositFractionForTriple) feeDenominator
  let userAssetsAfterAtomDepositFraction := userDepositAfterprotocolFee - atomDepositFraction
  let entryFeeAmount := if totalShares = minShare then 0
    else floorDiv (userAssetsAfterAtomDepositFraction * entryFee) feeDenominator
  let assetsAfterEntryFee := userAssetsAfterAtomDepositFraction - entryFeeAmount
  let userSharesAfterEntryFee := if totalShares = 0 then assetsAfterEntryFee
    else floorDiv (assetsAfterEntryFee * totalShares) totalAssets
  let perAtom := floorDiv atomDepositFraction 3
  let entryFeeAmountForAtom := if totalSharesAtom = minShare then 0
    else floorDiv (perAtom * entryFee) feeDenominator
  let assetsForTheAtom := perAtom - entryFeeAmountForAtom
  let userSharesForTheAtom := if totalSharesAtom = 0 then assetsForTheAtom
    else floorDiv (assetsForTheAtom * totalSharesAtom) totalAssetsAtom
  { userSharesPositiveVault := userSharesAfterEntryFee
    totalSharesPositiveVault := userSharesAfterEntryFee
    totalAssetsPositiveVault := assetsAfterEntryFee + entryFeeAmount
    userSharesAtomVault := userSharesForTheAtom
    totalSharesAtomVault := userSharesForTheAtom
    totalAssetsAtomVault := assetsForTheAtom + entryFeeAmountForAtom
    protocolMultisigAssets := protocolFeeAmount }

/-- The `userAssets` local variable of `redeem` (lines 156-159). -/
def redeemUserAssets (shares totalAssets totalShares : ℕ) : ℕ :=
  if totalShares = 0 then shares else floorDiv (shares * totalAssets) totalShares

/-- The `protocolFeeAmount` local variable of `redeem` (line 161). -/
def redeemProtocolFeeAmount (shares totalAssets totalShares : ℕ) : ℕ :=
  ceilDiv (redeemUserAssets shares totalAssets totalShares * protocolFee) feeDenominator

/-- The `userAssetsAfterprotocolFee` local variable of `redeem` (line 162). -/
def redeemUserAssetsAfterprotocolFee (shares totalAssets totalShares : ℕ) : ℕ :=
  redeemUserAssets shares totalAssets totalShares
    - redeemProtocolFeeAmount shares totalAssets totalShares

/-- Result tuple of `redeem`. -/
structure RedeemResult where
  userAssetsAfterexitFee : ℕ
  protocolFeeAmount : ℕ
  exitFeeAmount : ℕ
deriving DecidableEq

/-- `redeem(shares, totalAssets, totalShares)` from `ethmultivault.py` lines 155-171. -/
def redeem (shares totalAssets totalShares : ℕ) : RedeemResult :=
  let exitFeeAmount := if totalShares - shares = minShare then 0
    else ceilDiv (redeemUserAssetsAfterprotocolFee shares totalAssets totalShares * exitFee)
      feeDenominator
  { userAssetsAfterexitFee :=
      redeemUserAssetsAfterprotocolFee shares totalAssets totalShares - exitFeeAmount
    protocolFeeAmount := redeemProtocolFeeAmount shares totalAssets totalShares
    exitFeeAmount := exitFeeAmount }

/-- C1: value consumed by `createAtom` equals assets placed in the vault plus the
protocol take, for every `value ≥ atomCost`. -/
theorem createAtom_value_conservation (value : ℕ) (h : atomCost ≤ value) :
    value = (createAtom value).totalAssets + (createAtom value).protocolMultisigAssets := by
  simp only [createAtom, atomCost, atomCreationProtocolFee, atomWalletInitialDepositAmount,
    minShare, protocolFee, feeDenominator, ceilDiv] at h ⊢
  omega

/-- Witness for C1 at `value = atomCost`. -/
theorem createAtom_value_conservation_witness :
    atomCost = (createAtom atomCost).totalAssets + (createAtom atomCost).protocolMultisigAssets :=
  createAtom_value_conservation atomCost le_rfl

/-- C2 counterexample: at `value = tripleCost + 100` the assets added to the five
touched vaults plus the protocol fee come to `value - 2`: the remainder of the
three-way split of `atomDepositFraction` (here `14 % 3 = 2`) is silently dropped,
so value is destroyed and the conservation claim fails as stated. -/
theorem createTriple_conservation_cex :
    (createTriple 500000000200100).totalAssetsPositiveVault
      + (createTriple 500000000200100).totalAssetsNegativeVault
      + 3 * (createTriple 500000000200100).totalAssetsAtomVault
      + (createTriple 500000000200100).protocolMultisigAssets ≠ 500000000200100 := by
  decide

/-- C2 amended: for every `value ≥ tripleCost`, the value consumed by
`createTriple` equals the assets added to the positive vault, the negative vault
and the three underlying atom vaults, plus the protocol fee, plus the discarded
remainder `atomDepositFraction % 3` (at most 2 wei) of the three-way atom split. -/
theorem createTriple_conservation_mod3 (value : ℕ) (h : tripleCost ≤ value) :
    (createTriple value).totalAssetsPositiveVault
      + (createTriple value).totalAssetsNegativeVault
      + 3 * (createTriple value).totalAssetsAtomVault
      + (createTriple value).protocolMultisigAssets
      + tripleAtomDepositFraction value % 3 = value := by
  simp only [createTriple, tripleAtomDepositFraction, tripleCost, tripleCreationProtocolFee,
    atomDepositFractionOnTripleCreation, atomDepositFractionForTriple, minShare, protocolFee,
    entryFee, feeDenominator, ceilDiv, floorDiv] at h ⊢
  omega

/-- Witness for the amended C2 at `value = tripleCost`. -/
theorem createTriple_conservation_mod3_witness :
    (createTriple tripleCost).totalAssetsPositiveVault
      + (createTriple tripleCost).totalAssetsNegativeVault
      + 3 * (createTriple tripleCost).totalAssetsAtomVault
      + (createTriple tripleCost).protocolMultisigAssets
      + tripleAtomDepositFraction tripleCost % 3 = tripleCost :=
  createTriple_conservation_mod3 tripleCost le_rfl

/-- C10: `redeem` exactly partitions the gross converted assets between the user,
the protocol fee and the exit fee whenever `totalShares > 0`. -/
theorem redeem_partition (shares totalAssets totalShares : ℕ) (hS : 0 < totalShares) :
    (redeem shares totalAssets totalShares).userAssetsAfterexitFee
      + (redeem shares totalAssets totalShares).protocolFeeAmount
      + (redeem shares totalAssets totalShares).exitFeeAmount
      = floorDiv (shares * totalAssets) totalShares := by
  have hu : redeemUserAssets shares totalAssets totalShares
      = floorDiv (shares * totalAssets) totalShares := by
    unfold redeemUserAssets
    rw [if_neg (Nat.pos_iff_ne_zero.mp hS)]
  simp only [redeem, redeemUserAssetsAfterprotocolFee, redeemProtocolFeeAmount, hu, minShare,
    protocolFee, exitFee, feeDenominator, ceilDiv]
  split <;> omega

/-- Witness for C10 at `redeem(2, 100, 100)`. -/
theorem redeem_partition_witness :
    (redeem 2 100 100).userAssetsAfterexitFee + (redeem 2 100 100).protocolFeeAmount
      + (redeem 2 100 100).exitFeeAmount = floorDiv (2 * 100) 100 :=
  redeem_partition 2 100 100 (by decide)

/-- C5 counterexample: `redeem(1, 100, 100)` charges no exit fee even though
`totalShares - shares = 99 ≠ minShare`: the post-protocol-fee amount is 0, so the
ceiling of its 5% is 0.  The exit fee is therefore not zero *exactly* when the
dust-floor condition holds. -/
theorem exitFee_zero_cex :
    (redeem 1 100 100).exitFeeAmount = 0 ∧ (100 : ℕ) - 1 ≠ minShare := by
  decide

/-- C5 amended: the exit fee is zero exactly when the redemption would leave the
vault at its dust floor or the post-protocol-fee amount is zero; and a full exit
(`shares = totalShares`) never takes the fee-skipping branch, since it leaves 0
shares, not `minShare`. -/
theorem exitFee_zero_iff (shares totalAssets totalShares : ℕ) :
    ((redeem shares totalAssets totalShares).exitFeeAmount = 0 ↔
      totalShares - shares = minShare ∨
        redeemUserAssetsAfterprotocolFee shares totalAssets totalShares = 0) ∧
    (redeem totalShares totalAssets totalShares).exitFeeAmount
      = ceilDiv (redeemUserAssetsAfterprotocolFee totalShares totalAssets totalShares * exitFee)
          feeDenominator := by
  constructor
  · simp only [redeem]
    split
    next hcond => simp [hcond]
    next hcond =>
      simp only [hcond, false_or, exitFee, feeDenominator, ceilDiv]
      omega
  · simp only [redeem]
    rw [if_neg (by simp only [minShare]; omega)]

/-- Error kinds of the engine (spec section 7). -/
inductive VaultError where
  | InsufficientDeposit
  | InsufficientShares
deriving DecidableEq

/-- Modelled from the spec: the precondition `value ≥ atomCost, else fails with
InsufficientDeposit` is enforced by the on-chain `EthMultiVault` contract, which
is not among the playground sources; the guard wraps the playground arithmetic. -/
def createAtomChecked (value : ℕ) : Except VaultError AtomCreateResult :=
  if value < atomCost then Except.error VaultError.InsufficientDeposit
  else Except.ok (createAtom value)

/-- Modelled from the spec: the precondition `value ≥ tripleCost` failing with
`InsufficientDeposit` is enforced by the on-chain contract, which is not among
the playground sources; the guard wraps the playground arithmetic. -/
def createTripleChecked (value : ℕ) : Except VaultError TripleCreateResult :=
  if value < tripleCost then Except.error VaultError.InsufficientDeposit
  else Except.ok (createTriple value)

/-- Modelled from the spec: the precondition `0 < shares ≤ vault.totalShares,
else fails with InsufficientShares` is enforced by the on-chain contract, which
is not among the playground sources; the guard wraps the playground arithmetic. -/
def redeemChecked (shares totalAssets totalShares : ℕ) : Except VaultError RedeemResult :=
  if 0 < shares ∧ shares ≤ totalShares then Except.ok (redeem shares totalAssets totalShares)
  else Except.error VaultError.InsufficientShares

/-- C6: creation below the applicable cost fails with `InsufficientDeposit` and
produces no result (the error constructor carries no vault totals, shares or fee
take). -/
theorem createChecked_insufficientDeposit (value : ℕ) :
    (value < atomCost → createAtomChecked value = Except.error VaultError.InsufficientDeposit) ∧
    (value < tripleCost →
      createTripleChecked value = Except.error VaultError.InsufficientDeposit) := by
  constructor <;> intro h <;> simp [createAtomChecked, createTripleChecked, h]

/-- Witness for C6 at `value = 0`. -/
theorem createChecked_insufficientDeposit_witness :
    createAtomChecked 0 = Except.error VaultError.InsufficientDeposit ∧
    createTripleChecked 0 = Except.error VaultError.InsufficientDeposit :=
  ⟨(createChecked_insufficientDeposit 0).1 (by decide),
    (createChecked_insufficientDeposit 0).2 (by decide)⟩

/-- C7: `redeem` fails with `InsufficientShares` when `shares = 0` or
`shares > totalShares`, and succeeds exactly when `0 < shares ≤ totalShares`. -/
theorem redeemChecked_insufficientShares (shares totalAssets totalShares : ℕ) :
    ((shares = 0 ∨ totalShares < shares) →
      redeemChecked shares totalAssets totalShares
        = Except.error VaultError.InsufficientShares) ∧
    ((∃ r, redeemChecked shares totalAssets totalShares = Except.ok r) ↔
      0 < shares ∧ shares ≤ totalShares) := by
  unfold redeemChecked
  constructor
  · intro h
    rw [if_neg (by omega)]
  · constructor
    · rintro ⟨r, hr⟩
      by_cases hc : 0 < shares ∧ shares ≤ totalShares
      · exact hc
      · rw [if_neg hc] at hr
        exact absurd hr (by simp)
    · intro hc
      exact ⟨redeem shares totalAssets totalShares, by rw [if_pos hc]⟩

/-- Witness for C7 at `shares = 0` (failure) and `shares = 2` (success side). -/
theorem redeemChecked_insufficientShares_witness :
    redeemChecked 0 100 100 = Except.error VaultError.InsufficientShares ∧
    ((∃ r, redeemChecked 2 100 100 = Except.ok r) ↔ 0 < 2 ∧ 2 ≤ 100) :=
  ⟨(redeemChecked_insufficientShares 0 100 100).1 (Or.inl rfl),
    (redeemChecked_insufficientShares 2 100 100).2⟩

/-- Multiplying a floor quotient back never exceeds the dividend. -/
lemma floorDiv_mul_le (a b : ℕ) : floorDiv a b * b ≤ a :=
  Nat.div_mul_le_self a b

/-- C8: with both totals positive and a positive entry fee, a `depositAtom`
never decreases the share price `totalAssets / totalShares`. -/
theorem depositAtom_price_monotone (value totalAssets totalShares : ℕ)
    (hA : 0 < totalAssets) (hS : 0 < totalShares)
    (hef : 0 < depositEntryFeeAmount value) :
    (totalAssets : ℚ) / (totalShares : ℚ) ≤
      ((depositAtom value totalAssets totalShares).totalAssetsAtomVault : ℚ) /
        ((depositAtom value totalAssets totalShares).totalSharesAtomVault : ℚ) := by
  have hS2 : 0 < (depositAtom value totalAssets totalShares).totalSharesAtomVault := by
    simp only [depositAtom]
    omega
  have h1 : floorDiv ((value - depositProtocolFeeAmount value - depositEntryFeeAmount value)
      * totalShares) totalAssets * totalAssets
      ≤ (value - depositProtocolFeeAmount value - depositEntryFeeAmount value) * totalShares :=
    floorDiv_mul_le _ _
  have hcross : totalAssets * (depositAtom value totalAssets totalShares).totalSharesAtomVault
      ≤ (depositAtom value totalAssets totalShares).totalAssetsAtomVault * totalShares := by
    simp only [depositAtom]
    nlinarith [h1]
  rw [div_le_div_iff₀ (by exact_mod_cast hS) (by exact_mod_cast hS2)]
  exact_mod_cast hcross

/-- Witness for C8 at `depositAtom(10000, 100, 100)`, whose entry fee is 495. -/
theorem depositAtom_price_monotone_witness :
    (100 : ℚ) / (100 : ℚ) ≤
      ((depositAtom 10000 100 100).totalAssetsAtomVault : ℚ) /
        ((depositAtom 10000 100 100).totalSharesAtomVault : ℚ) :=
  depositAtom_price_monotone 10000 100 100 (by decide) (by decide) (by decide)

/-- C9 counterexample: depositing `value = 0` into a (100, 100) vault and
redeeming the granted shares returns exactly the deposited value, although every
fee rate of the model is nonzero; equality is therefore not confined to the
zero-fee case. -/
theorem roundTrip_cex :
    (redeem (depositAtom 0 100 100).userSharesForTheAtom
        (depositAtom 0 100 100).totalAssetsAtomVault
        (depositAtom 0 100 100).totalSharesAtomVault).userAssetsAfterexitFee = 0 ∧
    protocolFee ≠ 0 ∧ entryFee ≠ 0 ∧ exitFee ≠ 0 := by
  decide

/-- C9 amended: a deposit immediately followed by a redeem of the granted shares
returns at most the deposited value, with equality exactly when the deposited
value is 0 (despite the nonzero fee rates). -/
theorem roundTrip_le (value totalAssets totalShares : ℕ)
    (hA : 0 < totalAssets) (hS : 0 < totalShares) :
    (redeem (depositAtom value totalAssets totalShares).userSharesForTheAtom
        (depositAtom value totalAssets totalShares).totalAssetsAtomVault
        (depositAtom value totalAssets totalShares).totalSharesAtomVault).userAssetsAfterexitFee
      ≤ value ∧
    ((redeem (depositAtom value totalAssets totalShares).userSharesForTheAtom
        (depositAtom value totalAssets totalShares).totalAssetsAtomVault
        (depositAtom value totalAssets totalShares).totalSharesAtomVault).userAssetsAfterexitFee
      = value ↔ value = 0) := by
  have hpfv : depositProtocolFeeAmount value ≤ value := by
    unfold depositProtocolFeeAmount ceilDiv protocolFee feeDenominator
    omega
  have hefv : depositEntryFeeAmount value ≤ value - depositProtocolFeeAmount value := by
    unfold depositEntryFeeAmount floorDiv entryFee feeDenominator
    omega
  have hus : (depositAtom value totalAssets totalShares).userSharesForTheAtom
      = floorDiv ((value - depositProtocolFeeAmount value - depositEntryFeeAmount value)
          * totalShares) totalAssets := by
    simp only [depositAtom]
  have hA2 : (depositAtom value totalAssets totalShares).totalAssetsAtomVault
      = totalAssets + (value - depositProtocolFeeAmount value) := by
    simp only [depositAtom]
    omega
  have hS2 : (depositAtom value totalAssets totalShares).totalSharesAtomVault
      = totalShares + (depositAtom value totalAssets totalShares).userSharesForTheAtom := by
    simp only [depositAtom]
  have hS2ne : (depositAtom value totalAssets totalShares).totalSharesAtomVault ≠ 0 := by
    simp only [depositAtom]
    omega
  have husA : (depositAtom value totalAssets totalShares).userSharesForTheAtom * totalAssets
      ≤ (value - depositProtocolFeeAmount value) * totalShares := by
    rw [hus]
    calc floorDiv ((value - depositProtocolFeeAmount value - depositEntryFeeAmount value)
          * totalShares) totalAssets * totalAssets
        ≤ (value - depositProtocolFeeAmount value - depositEntryFeeAmount value) * totalShares :=
          floorDiv_mul_le _ _
      _ ≤ (value - depositProtocolFeeAmount value) * totalShares :=
          Nat.mul_le_mul_right _ (Nat.sub_le _ _)
  have hgross : redeemUserAssets (depositAtom value totalAssets totalShares).userSharesForTheAtom
      (depositAtom value totalAssets totalShares).totalAssetsAtomVault
      (depositAtom value totalAssets totalShares).totalSharesAtomVault
      ≤ value - depositProtocolFeeAmount value := by
    unfold redeemUserAssets
    rw [if_neg hS2ne]
    by_contra hcon
    push_neg at hcon
    have hg := floorDiv_mul_le ((depositAtom value totalAssets totalShares).userSharesForTheAtom
      * (depositAtom value totalAssets totalShares).totalAssetsAtomVault)
      (depositAtom value totalAssets totalShares).totalSharesAtomVault
    rw [hA2, hS2] at hg
    have hp1 : (value - depositProtocolFeeAmount value + 1)
        * (totalShares + (depositAtom value totalAssets totalShares).userSharesForTheAtom)
        ≤ floorDiv ((depositAtom value totalAssets totalShares).userSharesForTheAtom
            * (totalAssets + (value - depositProtocolFeeAmount value)))
            (totalShares + (depositAtom value totalAssets totalShares).userSharesForTheAtom)
        * (totalShares + (depositAtom value totalAssets totalShares).userSharesForTheAtom) := by
      apply Nat.mul_le_mul_right
      rw [hA2, hS2] at hcon
      omega
    nlinarith [hp1.trans hg, husA, hS]
  have hout : (redeem (depositAtom value totalAssets totalShares).userSharesForTheAtom
      (depositAtom value totalAssets totalShares).totalAssetsAtomVault
      (depositAtom value totalAssets totalShares).totalSharesAtomVault).userAssetsAfterexitFee
      ≤ redeemUserAssets (depositAtom value totalAssets totalShares).userSharesForTheAtom
        (depositAtom value totalAssets totalShares).totalAssetsAtomVault
        (depositAtom value totalAssets totalShares).totalSharesAtomVault := by
    simp only [redeem, redeemUserAssetsAfterprotocolFee]
    split <;> omega
  constructor
  · omega
  · constructor
    · intro heq
      by_contra hv0
      have hpf1 : 1 ≤ depositProtocolFeeAmount value := by
        unfold depositProtocolFeeAmount ceilDiv protocolFee feeDenominator
        omega
      omega
    · intro hv
      subst hv
      have hz0 : depositProtocolFeeAmount 0 = 0 := by decide
      have hz1 : depositEntryFeeAmount 0 = 0 := by decide
      have hz2 : (depositAtom 0 totalAssets totalShares).userSharesForTheAtom = 0 := by
        rw [hus, hz0, hz1]
        simp [floorDiv]
      have hz3 : redeemUserAssets (depositAtom 0 totalAssets totalShares).userSharesForTheAtom
          (depositAtom 0 totalAssets totalShares).totalAssetsAtomVault
          (depositAtom 0 totalAssets totalShares).totalSharesAtomVault = 0 := by
        rw [hz2]
        unfold redeemUserAssets floorDiv
        split <;> simp
      simp only [redeem, redeemUserAssetsAfterprotocolFee, redeemProtocolFeeAmount, hz3]
      omega

/-- The vault aggregates tracked by the external ledger. -/
structure Vault where
  totalShares : ℕ
  totalAssets : ℕ
deriving DecidableEq

/-- Ledger application of a `depositAtom` result to a vault snapshot. -/
def depositStep (value : ℕ) (v : Vault) : Vault :=
  { totalShares := (depositAtom value v.totalAssets v.totalShares).totalSharesAtomVault
    totalAssets := (depositAtom value v.totalAssets v.totalShares).totalAssetsAtomVault }

/-- Ledger application of a `redeem` result: `totalShares` drops by the burnt
shares, `totalAssets` by the user payout plus the protocol fee (the exit fee
stays in the vault), as on lines 391-392 of the source. -/
def redeemStep (shares : ℕ) (v : Vault) : Vault :=
  { totalShares := v.totalShares - shares
    totalAssets := v.totalAssets
      - ((redeem shares v.totalAssets v.totalShares).userAssetsAfterexitFee
        + (redeem shares v.totalAssets v.totalShares).protocolFeeAmount) }

/-- Vault states reachable from a valid creation by deposits and redeems whose
validity is the claimed precondition `0 < shares ≤ totalShares`. -/
inductive Reachable : Vault → Prop
  | create (value : ℕ) (h : atomCost ≤ value) :
      Reachable ⟨(createAtom value).totalShares, (createAtom value).totalAssets⟩
  | deposit (value : ℕ) (v : Vault) (hv : Reachable v) : Reachable (depositStep value v)
  | redeem (shares : ℕ) (v : Vault) (hv : Reachable v) (h1 : 0 < shares)
      (h2 : shares ≤ v.totalShares) : Reachable (redeemStep shares v)

/-- Vault states reachable when every redeem additionally leaves at least the
`minShare` dust floor of shares in the vault. -/
inductive ReachableGuarded : Vault → Prop
  | create (value : ℕ) (h : atomCost ≤ value) :
      ReachableGuarded ⟨(createAtom value).totalShares, (createAtom value).totalAssets⟩
  | deposit (value : ℕ) (v : Vault) (hv : ReachableGuarded v) :
      ReachableGuarded (depositStep value v)
  | redeem (shares : ℕ) (v : Vault) (hv : ReachableGuarded v) (h1 : 0 < shares)
      (h2 : shares + minShare ≤ v.totalShares) : ReachableGuarded (redeemStep shares v)

/-- The user payout plus the protocol fee of a `redeem` never exceed the gross
converted assets. -/
lemma redeem_out_le_userAssets (shares totalAssets totalShares : ℕ) :
    (redeem shares totalAssets totalShares).userAssetsAfterexitFee
      + (redeem shares totalAssets totalShares).protocolFeeAmount
      ≤ redeemUserAssets shares totalAssets totalShares := by
  simp only [redeem, redeemUserAssetsAfterprotocolFee, redeemProtocolFeeAmount, protocolFee,
    exitFee, feeDenominator, ceilDiv, minShare]
  split <;> omega

/-- Cross-multiplied price bound used in the redeem step of the dust-floor
induction. -/
lemma price_cross (S A g sh : ℤ) (hS : 0 < S) (h1 : sh ≤ S) (h2 : S ≤ A)
    (h3 : g * S ≤ sh * A) : S + g ≤ A + sh := by
  nlinarith [mul_nonneg (sub_nonneg.mpr h2) (sub_nonneg.mpr h1)]

/-- Inductive invariant: every guarded-reachable vault keeps at least `minShare`
shares and a share price of at least one. -/
lemma reachableGuarded_inv (v : Vault) (h : ReachableGuarded v) :
    minShare ≤ v.totalShares ∧ v.totalShares ≤ v.totalAssets := by
  induction h with
  | create value hval =>
      simp only [createAtom, minShare]
      omega
  | deposit value v hv ih =>
      obtain ⟨ih1, ih2⟩ := ih
      have hA : 0 < v.totalAssets := by
        unfold minShare at ih1
        omega
      have key : floorDiv ((value - depositProtocolFeeAmount value - depositEntryFeeAmount value)
          * v.totalShares) v.totalAssets
          ≤ value - depositProtocolFeeAmount value - depositEntryFeeAmount value := by
        have h1 : floorDiv ((value - depositProtocolFeeAmount value
            - depositEntryFeeAmount value) * v.totalShares) v.totalAssets * v.totalAssets
            ≤ (value - depositProtocolFeeAmount value - depositEntryFeeAmount value)
              * v.totalAssets :=
          le_trans (floorDiv_mul_le _ _) (Nat.mul_le_mul_left _ ih2)
        exact Nat.le_of_mul_le_mul_right h1 hA
      simp only [depositStep, depositAtom]
      omega
  | redeem shares v hv h1 h2 ih =>
      obtain ⟨ih1, ih2⟩ := ih
      have hS0 : v.totalShares ≠ 0 := by
        unfold minShare at ih1
        omega
      have hsh : shares ≤ v.totalShares := by
        unfold minShare at h2
        omega
      have hu : redeemUserAssets shares v.totalAssets v.totalShares
          = floorDiv (shares * v.totalAssets) v.totalShares := by
        unfold redeemUserAssets
        rw [if_neg hS0]
      have hout := redeem_out_le_userAssets shares v.totalAssets v.totalShares
      rw [hu] at hout
      have hmul : floorDiv (shares * v.totalAssets) v.totalShares * v.totalShares
          ≤ shares * v.totalAssets := floorDiv_mul_le _ _
      have hkey : v.totalShares + floorDiv (shares * v.totalAssets) v.totalShares
          ≤ v.totalAssets + shares := by
        have := price_cross (v.totalShares : ℤ) (v.totalAssets : ℤ)
          (floorDiv (shares * v.totalAssets) v.totalShares : ℤ) (shares : ℤ)
          (by exact_mod_cast Nat.pos_of_ne_zero hS0) (by exact_mod_cast hsh)
          (by exact_mod_cast ih2) (by exact_mod_cast hmul)
        exact_mod_cast this
      simp only [redeemStep]
      unfold minShare at h2 ⊢
      omega

/-- C3 counterexample: with redeem validity being just `0 < shares ≤ totalShares`
as claimed, a full redeem of a freshly created atom vault is valid and leaves
`totalShares = 0 < minShare`, so the dust floor is not an invariant. -/
theorem dustFloor_cex :
    ¬ ∀ v : Vault, Reachable v → minShare ≤ v.totalShares ∧ minShare ≤ v.totalAssets := by
  intro hall
  have hr : Reachable (redeemStep 100000000100000
      ⟨(createAtom atomCost).totalShares, (createAtom atomCost).totalAssets⟩) :=
    Reachable.redeem 100000000100000 _ (Reachable.create atomCost le_rfl)
      (by decide) (by decide)
  have hfloor := (hall _ hr).1
  have hzero : (redeemStep 100000000100000
      ⟨(createAtom atomCost).totalShares, (createAtom atomCost).totalAssets⟩).totalShares
      = 0 := by decide
  rw [hzero] at hfloor
  exact absurd hfloor (by decide)

/-- C3 amended: when every redeem additionally leaves at least `minShare` shares
in the vault (`shares + minShare ≤ totalShares`), all reachable vault states
keep `totalShares ≥ minShare` and `totalAssets ≥ minShare`. -/
theorem dustFloor_guarded (v : Vault) (h : ReachableGuarded v) :
    minShare ≤ v.totalShares ∧ minShare ≤ v.totalAssets := by
  obtain ⟨h1, h2⟩ := reachableGuarded_inv v h
  exact ⟨h1, le_trans h1 h2⟩

/-- Witness for the amended C3 at the vault created by `createAtom atomCost`. -/
theorem dustFloor_guarded_witness :
    minShare
      ≤ (⟨(createAtom atomCost).totalShares, (createAtom atomCost).totalAssets⟩ : Vault).totalShares
      ∧
    minShare
      ≤ (⟨(createAtom atomCost).totalShares, (createAtom atomCost).totalAssets⟩ :
          Vault).totalAssets :=
  dustFloor_guarded _ (ReachableGuarded.create atomCost le_rfl)

/-- Witness for the amended C9 at `value = 5` into a (100, 100) vault. -/
theorem roundTrip_le_witness :
    (redeem (depositAtom 5 100 100).userSharesForTheAtom
        (depositAtom 5 100 100).totalAssetsAtomVault
        (depositAtom 5 100 100).totalSharesAtomVault).userAssetsAfterexitFee ≤ 5 ∧
    ((redeem (depositAtom 5 100 100).userSharesForTheAtom
        (depositAtom 5 100 100).totalAssetsAtomVault
        (depositAtom 5 100 100).totalSharesAtomVault).userAssetsAfterexitFee = 5 ↔ (5 : ℕ) = 0) :=
  roundTrip_le 5 100 100 (by decide) (by decide)

/-- `q` is the floor of the exact rational `a / b`: `q*b ≤ a < q*b + b`. -/
def IsFloorOf (q a b : ℕ) : Prop := q * b ≤ a ∧ a < q * b + b

/-- `q` is the ceiling of the exact rational `a / b`: `a ≤ q*b < a + b`. -/
def IsCeilOf (q a b : ℕ) : Prop := a ≤ q * b ∧ q * b < a + b

/-- `floorDiv` computes the floor of the exact quotient. -/
lemma isFloorOf_floorDiv (a b : ℕ) (hb : 0 < b) : IsFloorOf (floorDiv a b) a b := by
  unfold IsFloorOf floorDiv
  refine ⟨Nat.div_mul_le_self a b, ?_⟩
  calc a = b * (a / b) + a % b := (Nat.div_add_mod a b).symm
    _ < b * (a / b) + b := Nat.add_lt_add_left (Nat.mod_lt a hb) _
    _ = a / b * b + b := by rw [Nat.mul_comm]

/-- `ceilDiv` computes the ceiling of the exact quotient over `feeDenominator`. -/
lemma isCeilOf_ceilDiv_feeDen (a : ℕ) : IsCeilOf (ceilDiv a feeDenominator) a feeDenominator := by
  unfold IsCeilOf ceilDiv feeDenominator
  omega

/-- C4 counterexample: in `redeem(2, 100, 100)` the post-protocol-fee amount is
1, whose floored 5% exit fee would be 0, yet the code charges 1: the exit fee is
computed with *ceiling* division, so the claim fails as stated. -/
theorem feeRounding_cex :
    (redeem 2 100 100).exitFeeAmount = 1 ∧
    floorDiv (redeemUserAssetsAfterprotocolFee 2 100 100 * exitFee) feeDenominator = 0 := by
  decide

/-- The amended per-operation rounding policy: protocol fees are exact ceilings,
entry fees, the triple atom-deposit fraction, the three-way split and all
asset-to-share conversions are exact floors, and — contrary to the original
claim — `redeem`'s exit fee is an exact ceiling. -/
def FeeRounding (value totalAssets totalShares totalAssetsAtom totalSharesAtom shares : ℕ) :
    Prop :=
  (∃ p, IsCeilOf p ((value - atomCost) * protocolFee) feeDenominator ∧
    (createAtom value).protocolMultisigAssets = atomCreationProtocolFee + p) ∧
  (∃ p adf pa e, IsCeilOf p ((value - tripleCost) * protocolFee) feeDenominator ∧
    IsFloorOf adf ((value - tripleCost - p) * atomDepositFractionForTriple) feeDenominator ∧
    IsFloorOf pa adf 3 ∧
    IsFloorOf e (pa * entryFee) feeDenominator ∧
    (createTriple value).protocolMultisigAssets = tripleCreationProtocolFee + p ∧
    (createTriple value).userSharesAtomVault = pa - e) ∧
  (∃ p e, IsCeilOf p (value * protocolFee) feeDenominator ∧
    IsFloorOf e ((value - p) * entryFee) feeDenominator ∧
    (depositAtom value totalAssets totalShares).protocolMultisigAssets = p ∧
    IsFloorOf (depositAtom value totalAssets totalShares).userSharesForTheAtom
      ((value - p - e) * totalShares) totalAssets) ∧
  (∃ p adf pa, IsCeilOf p (value * protocolFee) feeDenominator ∧
    IsFloorOf adf ((value - p) * atomDepositFractionForTriple) feeDenominator ∧
    IsFloorOf pa adf 3 ∧
    (depositTriple value totalAssets totalShares totalAssetsAtom
      totalSharesAtom).protocolMultisigAssets = p ∧
    (totalShares ≠ minShare →
      ∃ e, IsFloorOf e ((value - p - adf) * entryFee) feeDenominator ∧
        (totalShares ≠ 0 →
          IsFloorOf (depositTriple value totalAssets totalShares totalAssetsAtom
              totalSharesAtom).userSharesPositiveVault
            ((value - p - adf - e) * totalShares) totalAssets)) ∧
    (totalSharesAtom ≠ minShare →
      ∃ ea, IsFloorOf ea (pa * entryFee) feeDenominator ∧
        (totalSharesAtom ≠ 0 → 0 < totalAssetsAtom →
          IsFloorOf (depositTriple value totalAssets totalShares totalAssetsAtom
              totalSharesAtom).userSharesAtomVault
            ((pa - ea) * totalSharesAtom) totalAssetsAtom))) ∧
  (∃ u p, IsFloorOf u (shares * totalAssets) totalShares ∧
    IsCeilOf p (u * protocolFee) feeDenominator ∧
    (redeem shares totalAssets totalShares).protocolFeeAmount = p ∧
    (totalShares - shares ≠ minShare →
      IsCeilOf (redeem shares totalAssets totalShares).exitFeeAmount
        ((u - p) * exitFee) feeDenominator))

/-- C4 amended: in every operation the protocol fee is the exact ceiling of its
basis-point product, entry fees, split fractions and share conversions are exact
floors, and `redeem`'s exit fee (when charged) is an exact ceiling rather than a
floor. -/
theorem feeRounding_amended (value totalAssets totalShares totalAssetsAtom totalSharesAtom
    shares : ℕ) (hA : 0 < totalAssets) (hS : 0 < totalShares) :
    FeeRounding value totalAssets totalShares totalAssetsAtom totalSharesAtom shares := by
  have hfee : 0 < feeDenominator := by decide
  refine ⟨⟨ceilDiv ((value - atomCost) * protocolFee) feeDenominator,
      isCeilOf_ceilDiv_feeDen _, rfl⟩, ?_, ?_, ?_, ?_⟩
  · refine ⟨ceilDiv ((value - tripleCost) * protocolFee) feeDenominator,
      floorDiv ((value - tripleCost - ceilDiv ((value - tripleCost) * protocolFee) feeDenominator)
        * atomDepositFractionForTriple) feeDenominator, _, _,
      isCeilOf_ceilDiv_feeDen _, isFloorOf_floorDiv _ _ hfee,
      isFloorOf_floorDiv _ 3 (by decide), isFloorOf_floorDiv _ _ hfee, rfl, rfl⟩
  · refine ⟨depositProtocolFeeAmount value, depositEntryFeeAmount value, ?_, ?_, rfl, ?_⟩
    · exact isCeilOf_ceilDiv_feeDen _
    · exact isFloorOf_floorDiv _ _ hfee
    · simp only [depositAtom]
      exact isFloorOf_floorDiv _ _ hA
  · refine ⟨ceilDiv (value * protocolFee) feeDenominator,
      floorDiv ((value - ceilDiv (value * protocolFee) feeDenominator)
        * atomDepositFractionForTriple) feeDenominator,
      floorDiv (floorDiv ((value - ceilDiv (value * protocolFee) feeDenominator)
        * atomDepositFractionForTriple) feeDenominator) 3,
      isCeilOf_ceilDiv_feeDen _, isFloorOf_floorDiv _ _ hfee,
      isFloorOf_floorDiv _ 3 (by decide), rfl, ?_, ?_⟩
    · intro hSm
      refine ⟨floorDiv ((value - ceilDiv (value * protocolFee) feeDenominator
          - floorDiv ((value - ceilDiv (value * protocolFee) feeDenominator)
            * atomDepositFractionForTriple) feeDenominator) * entryFee) feeDenominator,
        isFloorOf_floorDiv _ _ hfee, ?_⟩
      intro hS0
      simp only [depositTriple]
      rw [if_neg hSm, if_neg hS0]
      exact isFloorOf_floorDiv _ _ hA
    · intro hSam
      refine ⟨floorDiv (floorDiv (floorDiv ((value
          - ceilDiv (value * protocolFee) feeDenominator)
          * atomDepositFractionForTriple) feeDenominator) 3 * entryFee) feeDenominator,
        isFloorOf_floorDiv _ _ hfee, ?_⟩
      intro hSa0 hAa
      simp only [depositTriple]
      rw [if_neg hSam, if_neg hSa0]
      exact isFloorOf_floorDiv _ _ hAa
  · have hS0 : totalShares ≠ 0 := Nat.pos_iff_ne_zero.mp hS
    have hu : redeemUserAssets shares totalAssets totalShares
        = floorDiv (shares * totalAssets) totalShares := by
      unfold redeemUserAssets
      rw [if_neg hS0]
    refine ⟨floorDiv (shares * totalAssets) totalShares,
      redeemProtocolFeeAmount shares totalAssets totalShares,
      isFloorOf_floorDiv _ _ hS, ?_, rfl, ?_⟩
    · rw [show redeemProtocolFeeAmount shares totalAssets totalShares
          = ceilDiv (floorDiv (shares * totalAssets) totalShares * protocolFee) feeDenominator
          from by unfold redeemProtocolFeeAmount; rw [hu]]
      exact isCeilOf_ceilDiv_feeDen _
    · intro hcond
      have hex : (redeem shares totalAssets totalShares).exitFeeAmount
          = ceilDiv (redeemUserAssetsAfterprotocolFee shares totalAssets totalShares * exitFee)
              feeDenominator := by
        simp only [redeem]
        rw [if_neg hcond]
      rw [hex, show redeemUserAssetsAfterprotocolFee shares totalAssets totalShares
          = floorDiv (shares * totalAssets) totalShares
            - redeemProtocolFeeAmount shares totalAssets totalShares
          from by unfold redeemUserAssetsAfterprotocolFee; rw [hu]]
      exact isCeilOf_ceilDiv_feeDen _

/-- Witness for the amended C4 at `(value, totals, shares) = (2, 100, 100, 100, 100, 2)`. -/
theorem feeRounding_amended_witness : FeeRounding 2 100 100 100 100 2 :=
  feeRounding_amended 2 100 100 100 100 2 (by decide) (by decide)

end EthMultiVault
